import Mathlib

/-!
Verification of the strobe vision sidecar (detection pipeline, overlap
suppressor, geometry utilities, model lifecycle and protocol server).

The Python source (`strobe_vision/omniparser.py`, `server.py`,
`protocol.py`, `models.py`) is shallowly embedded here: Python floats are
modelled as rationals (`ℚ`), Python exceptions as explicit `Except`
values distinguishing ordinary `Exception`s from `SystemExit`, and the
external collaborators (base64/PIL decoding, YOLO detection, Florence-2
captioning, filesystem model lookup) as parameters of an environment
record, so that the code under verification — validation ordering, the
suppression algorithm, the element assembly and the dispatch loop — is
embedded exactly.
-/

namespace StrobeVision

/-- The literal `1e-6` epsilon used by `OmniParser._compute_iou`. -/
def eps : ℚ := 1 / 1000000

/-- A detector box as built by `_remove_overlap`: the `xyxy` corner
coordinates together with the confidence score (`box.conf[0]`). -/
structure Box where
  x1 : ℚ
  y1 : ℚ
  x2 : ℚ
  y2 : ℚ
  conf : ℚ
deriving DecidableEq, Repr

/-- `area = (x2 - x1) * (y2 - y1)`, the derived attribute computed in
`_remove_overlap` (line `area = (x2 - x1) * (y2 - y1)`). -/
def area (b : Box) : ℚ := (b.x2 - b.x1) * (b.y2 - b.y1)

/-- `OmniParser._compute_iou(box1, box2)`: the extended overlap metric,
`max(iou, ratio1, ratio2)`, embedded line by line from the source. -/
def compute_iou (box1 box2 : Box) : ℚ :=
  let x1 := max box1.x1 box2.x1
  let y1 := max box1.y1 box2.y1
  let x2 := min box1.x2 box2.x2
  let y2 := min box1.y2 box2.y2
  let intersection := max 0 (x2 - x1) * max 0 (y2 - y1)
  let area1 := (box1.x2 - box1.x1) * (box1.y2 - box1.y1)
  let area2 := (box2.x2 - box2.x1) * (box2.y2 - box2.y1)
  let union := area1 + area2 - intersection + eps
  let iou := intersection / union
  let ratio1 := intersection / (area1 + eps)
  let ratio2 := intersection / (area2 + eps)
  max iou (max ratio1 ratio2)

/-- The intersection area term of `_compute_iou`, named for use in
statements. -/
def interArea (a b : Box) : ℚ :=
  max 0 (min a.x2 b.x2 - max a.x1 b.x1) * max 0 (min a.y2 b.y2 - max a.y1 b.y1)

theorem compute_iou_eq (a b : Box) :
    compute_iou a b =
      max (interArea a b / (area a + area b - interArea a b + eps))
        (max (interArea a b / (area a + eps)) (interArea a b / (area b + eps))) := rfl

theorem interArea_comm (a b : Box) : interArea a b = interArea b a := by
  simp [interArea, min_comm, max_comm]

theorem compute_iou_comm (a b : Box) : compute_iou a b = compute_iou b a := by
  rw [compute_iou_eq, compute_iou_eq, interArea_comm b a, add_comm (area b) (area a),
    max_comm (interArea a b / (area b + eps))]

/-- The inner-loop condition of `_remove_overlap`: box `b2` (at index `j`)
makes box `b1` (at index `i`) redundant when `j != i`, the extended overlap
exceeds the threshold, and `b1` is strictly larger. -/
def makesRedundantAt (iou_threshold : ℚ) (i : ℕ) (b1 : Box) (jb : ℕ × Box) : Bool :=
  decide (jb.1 ≠ i) && decide (iou_threshold < compute_iou b1 jb.2) &&
    decide (area jb.2 < area b1)

/-- `OmniParser._remove_overlap(boxes, iou_threshold)`: keep box `i` iff no
other box `j` has extended overlap above the threshold with strictly
smaller area.  The Python loop with `break` is the short-circuiting `any`
over the enumerated list. -/
def remove_overlap (boxes : List Box) (iou_threshold : ℚ) : List Box :=
  (boxes.enum.filter
    (fun ib => ! boxes.enum.any (makesRedundantAt iou_threshold ib.1 ib.2))).map Prod.snd

/-- Index-free form of the redundancy test: some box of the list overlaps
`b` above the threshold and is strictly smaller. -/
def anyRedundant (boxes : List Box) (b : Box) (iou_threshold : ℚ) : Bool :=
  boxes.any (fun b2 =>
    decide (iou_threshold < compute_iou b b2) && decide (area b2 < area b))

theorem enum_filter_map_snd {α : Type} (q : α → Bool) (l : List α) (n : ℕ) :
    ((l.enumFrom n).filter (fun p => q p.2)).map Prod.snd = l.filter q := by
  induction l generalizing n with
  | nil => rfl
  | cons a l ih =>
      simp only [List.enumFrom, List.filter_cons]
      by_cases h : q a
      · simp [h, ih]
      · simp [h, ih]

/-- Inside `_remove_overlap`, the enumerated redundancy test for an entry
`(i, b)` of `boxes.enum` agrees with the index-free test: the area
condition `area b2 < area b` already forces `b2 ≠ b`, so the `j != i`
guard only excludes the entry itself. -/
theorem any_makesRedundantAt_eq (boxes : List Box) (thr : ℚ) (i : ℕ) (b : Box)
    (hib : (i, b) ∈ boxes.enum) :
    boxes.enum.any (makesRedundantAt thr i b) = anyRedundant boxes b thr := by
  rw [Bool.eq_iff_iff]
  simp only [List.any_eq_true, anyRedundant, makesRedundantAt, Bool.and_eq_true,
    decide_eq_true_eq]
  constructor
  · rintro ⟨⟨j, b2⟩, hmem, ⟨-, hov⟩, harea⟩
    refine ⟨b2, ?_, ⟨hov, harea⟩⟩
    have : boxes.enum.map Prod.snd = boxes := List.enum_map_snd boxes
    rw [← this]
    exact List.mem_map_of_mem Prod.snd hmem
  · rintro ⟨b2, hmem, hov, harea⟩
    obtain ⟨j, hj, hjb⟩ := List.mem_iff_getElem.mp hmem
    refine ⟨(j, b2), ?_, ⟨⟨?_, hov⟩, harea⟩⟩
    · rw [List.mk_mem_enum_iff_getElem?]
      simp [List.getElem?_eq_getElem hj, hjb]
    · intro hji
      subst hji
      rw [List.mk_mem_enum_iff_getElem?] at hib
      have : b = b2 := by
        rw [List.getElem?_eq_getElem hj, hjb] at hib
        exact (Option.some.injEq _ _ ▸ hib).symm
      exact absurd harea (by rw [this]; exact lt_irrefl _)

/-- `_remove_overlap` is the filter of the input list by the index-free
redundancy test. -/
theorem remove_overlap_eq_filter (boxes : List Box) (thr : ℚ) :
    remove_overlap boxes thr = boxes.filter (fun b => ! anyRedundant boxes b thr) := by
  unfold remove_overlap
  rw [List.filter_congr (fun ib hib => ?_), show boxes.enum = boxes.enumFrom 0 from rfl,
    enum_filter_map_snd (fun b => ! anyRedundant boxes b thr)]
  show (! boxes.enum.any (makesRedundantAt thr ib.1 ib.2)) =
    (! anyRedundant boxes ib.2 thr)
  rw [any_makesRedundantAt_eq boxes thr ib.1 ib.2 hib]

theorem remove_overlap_sublist (boxes : List Box) (thr : ℚ) :
    (remove_overlap boxes thr).Sublist boxes := by
  rw [remove_overlap_eq_filter]
  exact List.filter_sublist boxes

theorem mem_remove_overlap_iff (boxes : List Box) (thr : ℚ) (b : Box) (hb : b ∈ boxes) :
    b ∈ remove_overlap boxes thr ↔
      ¬ ∃ b2 ∈ boxes, thr < compute_iou b b2 ∧ area b2 < area b := by
  rw [remove_overlap_eq_filter, List.mem_filter]
  simp only [hb, true_and, Bool.not_eq_eq_eq_not, Bool.not_true,
    anyRedundant, List.any_eq_true, Bool.and_eq_true, decide_eq_true_eq]
  constructor
  · intro h hex
    obtain ⟨b2, hmem, hov, harea⟩ := hex
    rw [Bool.eq_false_iff] at h
    exact h (by exact List.any_eq_true.mpr ⟨b2, hmem, by simp [hov, harea]⟩)
  · intro h
    rw [Bool.eq_false_iff]
    intro hex
    obtain ⟨b2, hmem, hcond⟩ := List.any_eq_true.mp hex
    simp only [Bool.and_eq_true, decide_eq_true_eq] at hcond
    exact h ⟨b2, hmem, hcond.1, hcond.2⟩

theorem remove_overlap_idem (boxes : List Box) (thr : ℚ) :
    remove_overlap (remove_overlap boxes thr) thr = remove_overlap boxes thr := by
  have hsub : ∀ b ∈ remove_overlap boxes thr, b ∈ boxes :=
    fun b hb => (remove_overlap_sublist boxes thr).subset hb
  rw [remove_overlap_eq_filter (remove_overlap boxes thr) thr]
  apply List.filter_eq_self.mpr
  intro b hb
  have hmem := (mem_remove_overlap_iff boxes thr b (hsub b hb)).mp hb
  simp only [Bool.not_eq_eq_eq_not, Bool.not_true, Bool.not_eq_true]
  rw [Bool.eq_false_iff]
  intro hex
  obtain ⟨b2, hmem2, hcond⟩ := List.any_eq_true.mp hex
  simp only [Bool.and_eq_true, decide_eq_true_eq] at hcond
  exact hmem ⟨b2, hsub b2 hmem2, hcond.1, hcond.2⟩

/-! ## Element assembly (`OmniParser.detect`, lines 94–113) -/

/-- Python `int(q)` on a float: truncation toward zero. -/
def pyInt (q : ℚ) : ℤ := if 0 ≤ q then ⌊q⌋ else ⌈q⌉

/-- Python `round(conf, 3)` — rounding to the nearest thousandth.  (CPython
rounds on the binary float with ties to even; exact `1/2000`-ties are a
float artifact and no claim depends on them, so the rational model uses
`round`.) -/
def round3 (q : ℚ) : ℚ := (round (q * 1000) : ℤ) / 1000

/-- The `bounds` dict of a `DetectedElement`: `{"x": int(x1), "y": int(y1),
"w": int(x2 - x1), "h": int(y2 - y1)}`. -/
structure Bounds where
  x : ℤ
  y : ℤ
  w : ℤ
  h : ℤ
deriving DecidableEq, Repr

/-- `protocol.DetectedElement`. -/
structure DetectedElement where
  label : String
  description : String
  confidence : ℚ
  bounds : Bounds
deriving DecidableEq, Repr

/-- Python's `caption.split()`: split on whitespace, dropping empty pieces
(whitespace modelled as the space character, the only separator occurring
in captions here). -/
def pySplit (s : String) : List String :=
  (s.splitOn " ").filter (fun t => !(t == ""))

/-- `OmniParser._caption_crop`: the Florence-2 call is the external
`captioner`; an exception from it is caught and replaced by
`("icon", "")`; on success the label is the first whitespace-delimited
token lowercased (`"icon"` when the caption is empty) and the description
is the full caption. -/
def caption_crop (captioner : Box → Except String String) (b : Box) :
    String × String :=
  match captioner b with
  | .error _ => ("icon", "")
  | .ok caption =>
      match pySplit caption with
      | [] => ("icon", caption)
      | p :: _ => (p.toLower, caption)

/-- One `DetectedElement` as assembled in the `for box_data in filtered`
loop of `detect`: `label or "icon"`, `description or ""`,
`round(conf, 3)` and the integer bounds.  (`description or ""` is the
identity on strings.) -/
def mkElement (captioner : Box → Except String String) (b : Box) :
    DetectedElement :=
  let lc := caption_crop captioner b
  { label := if lc.1 = "" then "icon" else lc.1
    description := lc.2
    confidence := round3 b.conf
    bounds :=
      { x := pyInt b.x1
        y := pyInt b.y1
        w := pyInt (b.x2 - b.x1)
        h := pyInt (b.y2 - b.y1) } }

/-! ## Model lifecycle and the detection pipeline -/

/-- A raised Python exception: `exc` is an ordinary `Exception` subclass
(caught by `except Exception`), `systemExit` is `SystemExit` as raised by
`sys.exit`, which `except Exception` does not catch. -/
inductive PyError where
  | exc (msg : String)
  | systemExit (code : ℕ)
deriving DecidableEq, Repr

/-- The mutable state of an `OmniParser` instance: the `_loaded` flag
(the loaded model objects themselves are external). -/
structure ParserState where
  loaded : Bool
deriving DecidableEq, Repr

/-- External collaborators of one `detect` call: whether `models_dir()`
finds a models directory, the length of the base64 payload, the outcome of
base64+PIL decoding (image width and height on success), the YOLO
detector's boxes on that image, and the captioner. -/
structure DetectEnv where
  modelsAvailable : Bool
  image_b64_len : ℕ
  decodeResult : Except String (ℕ × ℕ)
  yoloBoxes : List Box
  captioner : Box → Except String String

/-- `OmniParser.load`: a no-op when already loaded; otherwise resolves
`models_dir()` — which calls `sys.exit(1)` when no models directory
exists — and on success loads the backends and sets `_loaded`. -/
def load (st : ParserState) (env : DetectEnv) : Except PyError ParserState :=
  if st.loaded then .ok st
  else if env.modelsAvailable then .ok { loaded := true }
  else .error (.systemExit 1)

def MAX_IMAGE_SIZE : ℕ := 50 * 1024 * 1024

def MAX_PIXELS : ℕ := 3840 * 2160

/-- The `ValueError` message of the base64 size check. -/
def oversizeMsg (n : ℕ) : String :=
  "Image too large: " ++ toString n ++ " bytes exceeds 50MB limit"

/-- The `ValueError` message of the pixel-dimension check. -/
def dimsMsg (w h : ℕ) : String :=
  "Image too large: " ++ toString w ++ "x" ++ toString h ++ " exceeds 4K limit"

/-- `OmniParser.detect`, with the source's step order: `self.load()`
first, then the 50MB base64 size check, then decoding, then the 4K pixel
check, then YOLO, `_remove_overlap`, and per-box element assembly.
Returns the parser state after the call together with the elements or the
raised exception.  The confidence threshold is passed through to the
external detector only.  Defaults are the source's `conf=0.01, iou=0.1`. -/
def detect (st : ParserState) (env : DetectEnv)
    (confidence_threshold : ℚ := 1 / 100) (iou_threshold : ℚ := 1 / 10) :
    ParserState × Except PyError (List DetectedElement) :=
  let _ := confidence_threshold
  match load st env with
  | .error e => (st, .error e)
  | .ok st1 =>
      if MAX_IMAGE_SIZE < env.image_b64_len then
        (st1, .error (.exc (oversizeMsg env.image_b64_len)))
      else
        match env.decodeResult with
        | .error e => (st1, .error (.exc e))
        | .ok wh =>
            if MAX_PIXELS < wh.1 * wh.2 then
              (st1, .error (.exc (dimsMsg wh.1 wh.2)))
            else
              (st1, .ok ((remove_overlap env.yoloBoxes iou_threshold).map
                (mkElement env.captioner)))

/-! ## Protocol types (`protocol.py`) and the server loop (`server.py`) -/

/-- The `"options"` sub-object of a detect request; each field may be
absent. -/
structure RequestOptions where
  confidence_threshold : Option ℚ := none
  iou_threshold : Option ℚ := none
deriving DecidableEq, Repr

/-- A parsed JSON request object as the server reads it: every field the
dispatch touches may be absent (`dict.get`). -/
structure JsonDict where
  id : Option String := none
  type : Option String := none
  image : Option String := none
  options : Option RequestOptions := none

/-- `protocol.DetectRequest` with its dataclass defaults
`confidence_threshold=0.3, iou_threshold=0.5`. -/
structure DetectRequest where
  id : String
  type : String
  image : String
  confidence_threshold : ℚ := 3 / 10
  iou_threshold : ℚ := 1 / 2
deriving DecidableEq, Repr

/-- `DetectRequest.from_json`: `opts = data.get("options", {})`, option
fields defaulted via `opts.get(..., default)`; a missing `id`, `type` or
`image` key raises `KeyError` (an ordinary exception). -/
def DetectRequest.from_json (data : JsonDict) : Except PyError DetectRequest :=
  match data.id, data.type, data.image with
  | some i, some t, some img =>
      let opts := data.options.getD {}
      .ok { id := i
            type := t
            image := img
            confidence_threshold := opts.confidence_threshold.getD (3 / 10)
            iou_threshold := opts.iou_threshold.getD (1 / 2) }
  | _, _, _ => .error (.exc "KeyError")

/-- A response written to stdout: `PongResponse`, `DetectResponse` or
`ErrorResponse`. -/
inductive Response where
  | pong (id : String) (models_loaded : Bool) (device : String)
  | result (id : String) (elements : List DetectedElement) (latency_ms : ℕ)
  | error (id : String) (message : String)
deriving DecidableEq, Repr

/-- One input line after `json.loads`: either a `JSONDecodeError` with its
message, or a parsed object. -/
inductive ParsedLine where
  | invalid (errMsg : String)
  | obj (data : JsonDict)

/-- External collaborators of the server loop: the detect-call
environment, the device string chosen at startup, and the measured
wall-clock latency of the detect call. -/
structure ServerEnv where
  detectEnv : DetectEnv
  device : String
  latencyMs : ℕ

/-- Outcome of handling one input line: one response is written and the
loop continues with the new parser state, or an uncaught `SystemExit`
terminates the process. -/
inductive StepResult where
  | next (resp : Response) (st : ParserState)
  | exit (code : ℕ)

/-- The body of `main`'s `for line in sys.stdin` loop (`server.py`, lines
22–80): JSON errors yield `ErrorResponse{id:"unknown"}`; then dispatch on
`data.get("type", "")` with ping, detect and unknown-type arms, the whole
dispatch wrapped in `except Exception` which converts an ordinary
exception into an `ErrorResponse` with the request id — but does not
catch `SystemExit`. -/
def handleLine (st : ParserState) (env : ServerEnv) (line : ParsedLine) :
    StepResult :=
  match line with
  | .invalid e => .next (.error "unknown" ("Invalid JSON: " ++ e)) st
  | .obj data =>
      let req_id := data.id.getD "unknown"
      let req_type := data.type.getD ""
      if req_type = "ping" then
        .next (.pong req_id st.loaded env.device) st
      else if req_type = "detect" then
        match DetectRequest.from_json data with
        | .error (.exc m) => .next (.error req_id m) st
        | .error (.systemExit c) => .exit c
        | .ok req =>
            match detect st env.detectEnv req.confidence_threshold
                req.iou_threshold with
            | (st1, .ok elements) => .next (.result req_id elements env.latencyMs) st1
            | (st1, .error (.exc m)) => .next (.error req_id m) st1
            | (_, .error (.systemExit c)) => .exit c
      else
        .next (.error req_id ("Unknown request type: " ++ req_type)) st

/-! ## Spec-side geometry definitions (for refinement comparison) -/

/-- Modelled from the spec: `computeIoU(a, b)`, "standard
intersection-over-union with a small epsilon (1e-6) added to the
denominator". -/
def spec_computeIoU (a b : Box) : ℚ :=
  interArea a b / (area a + area b - interArea a b + eps)

/-- Modelled from the spec: `computeExtendedOverlap(a, b)` as `max(IoU(a,b),
intersection/area(a), intersection/area(b))` with the containment-ratio
terms as exact quotients, the way the spec states them. -/
def spec_computeExtendedOverlap (a b : Box) : ℚ :=
  max (spec_computeIoU a b)
    (max (interArea a b / area a) (interArea a b / area b))

/-! ## Claims -/

/-- C1: the overlap-suppressor drop rule.  A box `boxes[i]` is kept by
`_remove_overlap` iff there is no other index `j ≠ i` whose box has
extended overlap with it above the threshold and strictly smaller area;
for two conflicting boxes the strictly larger one is dropped and the
smaller retained; two boxes of equal area are both retained. -/
theorem remove_overlap_drop_rule (boxes : List Box) (thr : ℚ) :
    (∀ (i : ℕ) (hi : i < boxes.length),
      boxes[i] ∈ remove_overlap boxes thr ↔
        ¬ ∃ (j : ℕ) (_ : j < boxes.length), j ≠ i ∧
          thr < compute_iou boxes[i] boxes[j] ∧ area boxes[j] < area boxes[i])
    ∧ (∀ a b : Box, thr < compute_iou a b → area b < area a →
        remove_overlap [a, b] thr = [b])
    ∧ (∀ a b : Box, area a = area b → remove_overlap [a, b] thr = [a, b]) := by
  refine ⟨?_, ?_, ?_⟩
  · intro i hi
    rw [mem_remove_overlap_iff boxes thr boxes[i] (List.getElem_mem hi)]
    apply not_congr
    constructor
    · rintro ⟨b2, hmem, hov, har⟩
      obtain ⟨j, hj, hjb⟩ := List.mem_iff_getElem.mp hmem
      subst hjb
      refine ⟨j, hj, ?_, hov, har⟩
      rintro rfl
      exact lt_irrefl _ har
    · rintro ⟨j, hj, hne, hov, har⟩
      exact ⟨boxes[j], List.getElem_mem hj, hov, har⟩
  · intro a b hov har
    have hba : ¬ area a < area b := not_lt.mpr har.le
    have h1 : anyRedundant [a, b] a thr = true := by
      simp [anyRedundant, hov, har]
    have h2 : anyRedundant [a, b] b thr = false := by
      simp [anyRedundant, hba]
    rw [remove_overlap_eq_filter]
    simp [List.filter_cons, h1, h2]
  · intro a b heq
    have h1 : anyRedundant [a, b] a thr = false := by
      simp [anyRedundant, heq]
    have h2 : anyRedundant [a, b] b thr = false := by
      simp [anyRedundant, heq]
    rw [remove_overlap_eq_filter]
    simp [List.filter_cons, h1, h2]

/-- A 4×4 box fully containing `boxB`. -/
def boxA : Box := { x1 := 0, y1 := 0, x2 := 4, y2 := 4, conf := 1 / 2 }

/-- A 2×2 box inside `boxA`. -/
def boxB : Box := { x1 := 0, y1 := 0, x2 := 2, y2 := 2, conf := 1 / 2 }

/-- Witness for C1: on the concrete conflicting pair `[boxA, boxB]` with
threshold `0.9` the larger box is dropped and the smaller kept. -/
theorem remove_overlap_drop_rule_witness :
    remove_overlap [boxA, boxB] (9 / 10) = [boxB] :=
  (remove_overlap_drop_rule [boxA, boxB] (9 / 10)).2.1 boxA boxB
    (by norm_num [compute_iou_eq, interArea, area, boxA, boxB, eps, min_def, max_def])
    (by norm_num [area, boxA, boxB])

/-- C5 counterexample: on two identical unit boxes the code's
`_compute_iou` returns `1/(1+1e-6)` because the containment-ratio
denominators also carry the `1e-6` epsilon, while the spec's formula (with
exact quotients `intersection/area`) returns `1`. -/
theorem compute_iou_ne_spec :
    compute_iou { x1 := 0, y1 := 0, x2 := 1, y2 := 1, conf := 1 }
        { x1 := 0, y1 := 0, x2 := 1, y2 := 1, conf := 1 } ≠
      spec_computeExtendedOverlap { x1 := 0, y1 := 0, x2 := 1, y2 := 1, conf := 1 }
        { x1 := 0, y1 := 0, x2 := 1, y2 := 1, conf := 1 } := by
  norm_num [compute_iou_eq, spec_computeExtendedOverlap, spec_computeIoU,
    interArea, area, eps, min_def, max_def]

/-- C5 amended: `_compute_iou(a, b)` equals
`max(IoU(a,b), intersection/(area(a)+1e-6), intersection/(area(b)+1e-6))`
— the extended overlap metric in which the containment-ratio denominators
also carry the `1e-6` epsilon. -/
theorem compute_iou_spec_amended (a b : Box) :
    compute_iou a b = max (spec_computeIoU a b)
      (max (interArea a b / (area a + eps)) (interArea a b / (area b + eps))) :=
  compute_iou_eq a b

/-- C6: suppression is idempotent — re-running `_remove_overlap` on its
own output (same threshold) returns it unchanged — and the output
preserves the input order of the retained boxes (it is a sublist of the
input). -/
theorem remove_overlap_idempotent_ordered (boxes : List Box) (thr : ℚ) :
    remove_overlap (remove_overlap boxes thr) thr = remove_overlap boxes thr ∧
    (remove_overlap boxes thr).Sublist boxes :=
  ⟨remove_overlap_idem boxes thr, remove_overlap_sublist boxes thr⟩

/-- C10: for well-formed boxes (`x1 ≤ x2`, `y1 ≤ y2`) all three
denominators in `_compute_iou` are strictly positive — so no division by
zero occurs — and the returned value lies in `[0, 1)`. -/
theorem compute_iou_total_bounded (a b : Box)
    (hax : a.x1 ≤ a.x2) (hay : a.y1 ≤ a.y2)
    (hbx : b.x1 ≤ b.x2) (hby : b.y1 ≤ b.y2) :
    0 < area a + area b - interArea a b + eps ∧
    0 < area a + eps ∧ 0 < area b + eps ∧
    0 ≤ compute_iou a b ∧ compute_iou a b < 1 := by
  have heps : (0:ℚ) < eps := by norm_num [eps]
  have hwa : (0:ℚ) ≤ a.x2 - a.x1 := by linarith
  have hha : (0:ℚ) ≤ a.y2 - a.y1 := by linarith
  have hwb : (0:ℚ) ≤ b.x2 - b.x1 := by linarith
  have hhb : (0:ℚ) ≤ b.y2 - b.y1 := by linarith
  have hxI : (0:ℚ) ≤ max 0 (min a.x2 b.x2 - max a.x1 b.x1) := le_max_left 0 _
  have hyI : (0:ℚ) ≤ max 0 (min a.y2 b.y2 - max a.y1 b.y1) := le_max_left 0 _
  have hi0 : 0 ≤ interArea a b := mul_nonneg hxI hyI
  have hxa : max 0 (min a.x2 b.x2 - max a.x1 b.x1) ≤ a.x2 - a.x1 := by
    apply max_le hwa
    have h1 : min a.x2 b.x2 ≤ a.x2 := min_le_left _ _
    have h2 : a.x1 ≤ max a.x1 b.x1 := le_max_left _ _
    linarith
  have hya : max 0 (min a.y2 b.y2 - max a.y1 b.y1) ≤ a.y2 - a.y1 := by
    apply max_le hha
    have h1 : min a.y2 b.y2 ≤ a.y2 := min_le_left _ _
    have h2 : a.y1 ≤ max a.y1 b.y1 := le_max_left _ _
    linarith
  have hxb : max 0 (min a.x2 b.x2 - max a.x1 b.x1) ≤ b.x2 - b.x1 := by
    apply max_le hwb
    have h1 : min a.x2 b.x2 ≤ b.x2 := min_le_right _ _
    have h2 : b.x1 ≤ max a.x1 b.x1 := le_max_right _ _
    linarith
  have hyb : max 0 (min a.y2 b.y2 - max a.y1 b.y1) ≤ b.y2 - b.y1 := by
    apply max_le hhb
    have h1 : min a.y2 b.y2 ≤ b.y2 := min_le_right _ _
    have h2 : b.y1 ≤ max a.y1 b.y1 := le_max_right _ _
    linarith
  have hia : interArea a b ≤ area a := mul_le_mul hxa hya hyI hwa
  have hib : interArea a b ≤ area b := mul_le_mul hxb hyb hyI hwb
  have ha0 : 0 ≤ area a := mul_nonneg hwa hha
  have hb0 : 0 ≤ area b := mul_nonneg hwb hhb
  have hu : 0 < area a + area b - interArea a b + eps := by linarith
  have h1 : 0 < area a + eps := by linarith
  have h2 : 0 < area b + eps := by linarith
  refine ⟨hu, h1, h2, ?_, ?_⟩
  · rw [compute_iou_eq]
    exact le_max_of_le_left (div_nonneg hi0 hu.le)
  · rw [compute_iou_eq]
    apply max_lt
    · rw [div_lt_one hu]; linarith
    · apply max_lt
      · rw [div_lt_one h1]; linarith
      · rw [div_lt_one h2]; linarith

/-- Witness for C10 at the concrete well-formed pair `boxA`, `boxB`. -/
theorem compute_iou_total_bounded_witness :
    0 < area boxA + area boxB - interArea boxA boxB + eps ∧
    0 < area boxA + eps ∧ 0 < area boxB + eps ∧
    0 ≤ compute_iou boxA boxB ∧ compute_iou boxA boxB < 1 :=
  compute_iou_total_bounded boxA boxB (by norm_num [boxA]) (by norm_num [boxA])
    (by norm_num [boxB]) (by norm_num [boxB])

/-! ## Inversion helpers for the pipeline -/

theorem load_ok_loaded {st : ParserState} {env : DetectEnv} {st1 : ParserState}
    (h : load st env = .ok st1) : st1.loaded = true := by
  unfold load at h
  split at h
  next hl =>
    injection h with h2
    subst h2
    exact hl
  next =>
    split at h
    · injection h with h2
      subst h2
      rfl
    · exact Except.noConfusion h

theorem detect_ok_inv {st : ParserState} {env : DetectEnv} {c i : ℚ}
    {st1 : ParserState} {els : List DetectedElement}
    (h : detect st env c i = (st1, .ok els)) :
    load st env = .ok st1 ∧
    els = (remove_overlap env.yoloBoxes i).map (mkElement env.captioner) := by
  cases hld : load st env with
  | error e => simp [detect, hld] at h
  | ok st2 =>
      by_cases hsz : MAX_IMAGE_SIZE < env.image_b64_len
      · simp [detect, hld, hsz] at h
      · cases hdec : env.decodeResult with
        | error e => simp [detect, hld, hsz, hdec] at h
        | ok wh =>
            by_cases hpx : MAX_PIXELS < wh.1 * wh.2
            · simp [detect, hld, hsz, hdec, hpx] at h
            · simp [detect, hld, hsz, hdec, hpx] at h
              exact ⟨congrArg Except.ok h.1, h.2.symm⟩

/-! ## C2: oversize requests -/

/-- Oversize detect call: model assets present, base64 payload one
character over the 50MB limit. -/
def oversizeEnv : DetectEnv :=
  { modelsAvailable := true
    image_b64_len := 50 * 1024 * 1024 + 1
    decodeResult := .ok (100, 100)
    yoloBoxes := []
    captioner := fun _ => .error "unused" }

/-- C2 counterexample: an oversize detect call on an Unloaded parser does
yield the 50MB error, but only after `self.load()` has already run — the
model-lifecycle state afterwards is Loaded, not the previously Unloaded
state the claim says is preserved. -/
theorem detect_oversize_loads_first :
    (detect { loaded := false } oversizeEnv).2 =
      .error (.exc (oversizeMsg (50 * 1024 * 1024 + 1))) ∧
    (detect { loaded := false } oversizeEnv).1.loaded = true :=
  ⟨rfl, rfl⟩

/-- C2 amended: a detect call whose base64 payload exceeds 50MB (and whose
load step can succeed) fails with the error naming the 50MB limit before
any decoding — the decode outcome is irrelevant — and never yields a
result; but `detect` invokes `self.load()` before the size check, so the
post-state is Loaded even when the call started Unloaded. -/
theorem detect_oversize_error (st : ParserState) (env : DetectEnv) (c i : ℚ)
    (hload : st.loaded = true ∨ env.modelsAvailable = true)
    (hsize : MAX_IMAGE_SIZE < env.image_b64_len) :
    detect st env c i =
      ({ loaded := true }, .error (.exc (oversizeMsg env.image_b64_len))) := by
  have hld : load st env = .ok { loaded := true } := by
    cases st with
    | mk l =>
        cases l
        · rcases hload with h | h
          · simp at h
          · simp [load, h]
        · simp [load]
  simp [detect, hld, hsize]

/-- Witness for C2 amended at the concrete oversize environment. -/
theorem detect_oversize_error_witness :
    detect { loaded := false } oversizeEnv =
      ({ loaded := true }, .error (.exc (oversizeMsg (50 * 1024 * 1024 + 1)))) :=
  detect_oversize_error { loaded := false } oversizeEnv (1 / 100) (1 / 10)
    (Or.inr rfl) (by decide)

/-! ## C3: per-request error isolation -/

/-- Server environment whose model assets are missing. -/
def missingModelsEnv : ServerEnv :=
  { detectEnv :=
      { modelsAvailable := false
        image_b64_len := 10
        decodeResult := .ok (100, 100)
        yoloBoxes := []
        captioner := fun _ => .error "unused" }
    device := "cpu"
    latencyMs := 0 }

/-- A well-formed detect request line. -/
def detectLine : JsonDict :=
  { id := some "r1", type := some "detect", image := some "AAAA" }

/-- C3 counterexample: with model assets missing and the parser Unloaded, a
single detect request reaches `models_dir()` lazily inside the request
loop; its `sys.exit(1)` raises `SystemExit`, which `except Exception`
does not catch, so handling this one request terminates the process
instead of producing an `ErrorResponse` — the fatal error occurs during
request handling, not before the loop begins. -/
theorem handleLine_missing_models_fatal :
    handleLine { loaded := false } missingModelsEnv (.obj detectLine) = .exit 1 :=
  rfl

/-- C3 amended: every ordinary exception raised during dispatch of a detect
line is caught at the per-request boundary and converted into exactly one
`ErrorResponse` carrying the request id, and the loop continues; but the
missing-model-assets fatal error is raised lazily as `SystemExit` inside
the first detect request, is not caught by `except Exception`, and
terminates the process during handling of that request. -/
theorem handleLine_error_isolation :
    (∀ (st : ParserState) (env : ServerEnv) (data : JsonDict)
        (req : DetectRequest) (st1 : ParserState) (m : String),
      data.type = some "detect" →
      DetectRequest.from_json data = .ok req →
      detect st env.detectEnv req.confidence_threshold req.iou_threshold =
        (st1, .error (.exc m)) →
      handleLine st env (.obj data) =
        .next (.error (data.id.getD "unknown") m) st1)
    ∧ (∀ (st : ParserState) (env : ServerEnv) (data : JsonDict)
        (req : DetectRequest),
      st.loaded = false →
      env.detectEnv.modelsAvailable = false →
      data.type = some "detect" →
      DetectRequest.from_json data = .ok req →
      handleLine st env (.obj data) = .exit 1) := by
  constructor
  · intro st env data req st1 m hty hreq hdet
    simp [handleLine, hty, hreq, hdet]
  · intro st env data req hst hm hty hreq
    have hdet : detect st env.detectEnv req.confidence_threshold
        req.iou_threshold = (st, .error (.systemExit 1)) := by
      simp [detect, load, hst, hm]
    simp [handleLine, hty, hreq, hdet]

/-- Server environment whose detect call raises an ordinary `ValueError`
(oversize payload). -/
def oversizeServerEnv : ServerEnv :=
  { detectEnv := oversizeEnv, device := "cpu", latencyMs := 0 }

/-- Witness for C3 amended: the oversize `ValueError` is converted into one
`ErrorResponse` with the request id and the loop continues. -/
theorem handleLine_error_isolation_witness :
    handleLine { loaded := false } oversizeServerEnv (.obj detectLine) =
      .next (.error "r1" (oversizeMsg (50 * 1024 * 1024 + 1))) { loaded := true } :=
  handleLine_error_isolation.1 { loaded := false } oversizeServerEnv detectLine
    { id := "r1", type := "detect", image := "AAAA" } { loaded := true }
    (oversizeMsg (50 * 1024 * 1024 + 1)) rfl rfl rfl

/-! ## C4: bounds invariant -/

/-- A detector box narrower and shorter than one pixel, well inside a
100×100 image. -/
def thinBox : Box := { x1 := 0, y1 := 0, x2 := 1 / 2, y2 := 1 / 2, conf := 9 / 10 }

def thinBoxEnv : DetectEnv :=
  { modelsAvailable := true
    image_b64_len := 10
    decodeResult := .ok (100, 100)
    yoloBoxes := [thinBox]
    captioner := fun _ => .error "caption failed" }

/-- The element the pipeline produces for `thinBox`. -/
def thinElement : DetectedElement := mkElement thinBoxEnv.captioner thinBox

/-- C4 counterexample: a sub-pixel-wide detector box lying fully within
the 100×100 image yields an element with `w = 0` (the bounds use
`int(x2 - x1)`, which truncates widths below one pixel to zero), so the
claimed invariant `w > 0 ∧ h > 0` fails. -/
theorem detect_bounds_zero_width :
    (detect { loaded := false } thinBoxEnv).2 = .ok [thinElement] ∧
    thinElement.bounds.w = 0 ∧
    0 ≤ thinBox.x1 ∧ thinBox.x1 ≤ thinBox.x2 ∧ thinBox.x2 ≤ 100 ∧
    0 ≤ thinBox.y1 ∧ thinBox.y1 ≤ thinBox.y2 ∧ thinBox.y2 ≤ 100 := by
  refine ⟨rfl, ?_, by norm_num [thinBox], by norm_num [thinBox],
    by norm_num [thinBox], by norm_num [thinBox], by norm_num [thinBox],
    by norm_num [thinBox]⟩
  norm_num [thinElement, mkElement, pyInt, thinBox]

/-- C4 amended: when every detector box is well-formed, lies within the
decoded image's pixel extent and is at least one pixel wide and tall, every
element produced by the pipeline has `w > 0`, `h > 0`, and its rectangle
`(x, y, x+w, y+h)` lies fully within the image extent. -/
theorem detect_bounds_in_extent (st : ParserState) (env : DetectEnv) (c i : ℚ)
    (st1 : ParserState) (els : List DetectedElement) (W H : ℕ)
    (hboxes : ∀ b ∈ env.yoloBoxes,
      0 ≤ b.x1 ∧ 1 ≤ b.x2 - b.x1 ∧ b.x2 ≤ (W : ℚ) ∧
      0 ≤ b.y1 ∧ 1 ≤ b.y2 - b.y1 ∧ b.y2 ≤ (H : ℚ))
    (hdet : detect st env c i = (st1, .ok els)) :
    ∀ e ∈ els, 0 < e.bounds.w ∧ 0 < e.bounds.h ∧
      0 ≤ e.bounds.x ∧ e.bounds.x + e.bounds.w ≤ (W : ℤ) ∧
      0 ≤ e.bounds.y ∧ e.bounds.y + e.bounds.h ≤ (H : ℤ) := by
  intro e he
  rw [(detect_ok_inv hdet).2] at he
  obtain ⟨b, hb, rfl⟩ := List.mem_map.mp he
  have hbb : b ∈ env.yoloBoxes := (remove_overlap_sublist env.yoloBoxes i).subset hb
  obtain ⟨hx1, hw, hx2, hy1, hh, hy2⟩ := hboxes b hbb
  have hwq : (0:ℚ) ≤ b.x2 - b.x1 := by linarith
  have hhq : (0:ℚ) ≤ b.y2 - b.y1 := by linarith
  have hbx : (mkElement env.captioner b).bounds.x = ⌊b.x1⌋ := by
    simp [mkElement, pyInt, hx1]
  have hby : (mkElement env.captioner b).bounds.y = ⌊b.y1⌋ := by
    simp [mkElement, pyInt, hy1]
  have hbw : (mkElement env.captioner b).bounds.w = ⌊b.x2 - b.x1⌋ := by
    simp [mkElement, pyInt, hwq]
  have hbh : (mkElement env.captioner b).bounds.h = ⌊b.y2 - b.y1⌋ := by
    simp [mkElement, pyInt, hhq]
  rw [hbx, hby, hbw, hbh]
  have fx : (0:ℤ) ≤ ⌊b.x1⌋ := Int.le_floor.mpr (by exact_mod_cast hx1)
  have fy : (0:ℤ) ≤ ⌊b.y1⌋ := Int.le_floor.mpr (by exact_mod_cast hy1)
  have fw : (1:ℤ) ≤ ⌊b.x2 - b.x1⌋ := Int.le_floor.mpr (by exact_mod_cast hw)
  have fh : (1:ℤ) ≤ ⌊b.y2 - b.y1⌋ := Int.le_floor.mpr (by exact_mod_cast hh)
  have fxw : ⌊b.x1⌋ + ⌊b.x2 - b.x1⌋ ≤ (W:ℤ) := by
    have h1 : ((⌊b.x1⌋ + ⌊b.x2 - b.x1⌋ : ℤ) : ℚ) ≤ (W:ℚ) := by
      push_cast
      have g1 := Int.floor_le b.x1
      have g2 := Int.floor_le (b.x2 - b.x1)
      linarith
    exact_mod_cast h1
  have fyh : ⌊b.y1⌋ + ⌊b.y2 - b.y1⌋ ≤ (H:ℤ) := by
    have h1 : ((⌊b.y1⌋ + ⌊b.y2 - b.y1⌋ : ℤ) : ℚ) ≤ (H:ℚ) := by
      push_cast
      have g1 := Int.floor_le b.y1
      have g2 := Int.floor_le (b.y2 - b.y1)
      linarith
    exact_mod_cast h1
  exact ⟨by omega, by omega, fx, fxw, fy, fyh⟩

/-- A well-formed detector box at least one pixel wide and tall. -/
def goodBox : Box := { x1 := 0, y1 := 0, x2 := 2, y2 := 3, conf := 1 / 2 }

def goodBoxEnv : DetectEnv :=
  { modelsAvailable := true
    image_b64_len := 10
    decodeResult := .ok (10, 10)
    yoloBoxes := [goodBox]
    captioner := fun _ => .error "caption failed" }

def goodElement : DetectedElement := mkElement goodBoxEnv.captioner goodBox

/-- Witness for C4 amended at a concrete one-box pipeline run. -/
theorem detect_bounds_in_extent_witness :
    0 < goodElement.bounds.w ∧ 0 < goodElement.bounds.h ∧
    0 ≤ goodElement.bounds.x ∧
    goodElement.bounds.x + goodElement.bounds.w ≤ (10 : ℤ) ∧
    0 ≤ goodElement.bounds.y ∧
    goodElement.bounds.y + goodElement.bounds.h ≤ (10 : ℤ) :=
  detect_bounds_in_extent { loaded := false } goodBoxEnv (1 / 100) (1 / 10)
    { loaded := true } [goodElement] 10 10
    (by intro b hb
        simp only [goodBoxEnv, List.mem_singleton] at hb
        subst hb
        norm_num [goodBox])
    rfl goodElement (List.mem_singleton.mpr rfl)

/-! ## C7: per-box captioning failure isolation -/

/-- C7: when the captioner raises for exactly one surviving box, the
result still contains one element per surviving box — its length is the
full suppressed-list length — the failed box's element has label
`"icon"` and description `""`, and the elements of all other boxes are
computed from their own captions alone: any captioner agreeing with the
real one on the other boxes yields exactly the same elements for them. -/
theorem caption_failure_isolated (st : ParserState) (env : DetectEnv) (c i : ℚ)
    (st1 : ParserState) (els : List DetectedElement)
    (pre post : List Box) (bf : Box) (m : String)
    (g : Box → Except String String)
    (hdet : detect st env c i = (st1, .ok els))
    (hsplit : remove_overlap env.yoloBoxes i = pre ++ bf :: post)
    (hfail : env.captioner bf = .error m)
    (_hsucc : ∀ b ∈ pre ++ post, ∃ s, env.captioner b = .ok s)
    (hg : ∀ b ∈ pre ++ post, g b = env.captioner b) :
    els.length = (remove_overlap env.yoloBoxes i).length ∧
    els = pre.map (mkElement g) ++
      mkElement env.captioner bf :: post.map (mkElement g) ∧
    (mkElement env.captioner bf).label = "icon" ∧
    (mkElement env.captioner bf).description = "" := by
  have hels := (detect_ok_inv hdet).2
  have hpre : pre.map (mkElement env.captioner) = pre.map (mkElement g) := by
    apply List.map_congr_left
    intro b hb
    have hgb := hg b (List.mem_append_left post hb)
    simp [mkElement, caption_crop, hgb]
  have hpost : post.map (mkElement env.captioner) = post.map (mkElement g) := by
    apply List.map_congr_left
    intro b hb
    have hgb := hg b (List.mem_append_right pre hb)
    simp [mkElement, caption_crop, hgb]
  refine ⟨by rw [hels]; simp, ?_, ?_, ?_⟩
  · rw [hels, hsplit, List.map_append, List.map_cons, hpre, hpost]
  · simp [mkElement, caption_crop, hfail]
  · simp [mkElement, caption_crop, hfail]

/-- A surviving box whose caption call fails. -/
def failBox : Box := { x1 := 0, y1 := 0, x2 := 5, y2 := 5, conf := 1 / 2 }

def failCaptionEnv : DetectEnv :=
  { modelsAvailable := true
    image_b64_len := 10
    decodeResult := .ok (20, 20)
    yoloBoxes := [failBox]
    captioner := fun _ => .error "florence crashed" }

def failElements : List DetectedElement :=
  (remove_overlap failCaptionEnv.yoloBoxes (1 / 10)).map
    (mkElement failCaptionEnv.captioner)

/-- Witness for C7 at a concrete run whose single surviving box's caption
call fails. -/
theorem caption_failure_isolated_witness :
    failElements.length = (remove_overlap failCaptionEnv.yoloBoxes (1 / 10)).length ∧
    failElements = List.map (mkElement (fun _ => Except.ok "unused")) [] ++
      mkElement failCaptionEnv.captioner failBox ::
        List.map (mkElement (fun _ => Except.ok "unused")) [] ∧
    (mkElement failCaptionEnv.captioner failBox).label = "icon" ∧
    (mkElement failCaptionEnv.captioner failBox).description = "" :=
  caption_failure_isolated { loaded := false } failCaptionEnv (1 / 100) (1 / 10)
    { loaded := true } failElements [] [] failBox "florence crashed"
    (fun _ => Except.ok "unused") rfl rfl rfl
    (by intro b hb; simp at hb) (by intro b hb; simp at hb)

/-! ## C8: request construction and default thresholds -/

/-- C8: the `from_json` round-trip with explicit options yields the given
id and thresholds; absent options (whole object or individual fields)
default to `confidence_threshold = 0.3, iou_threshold = 0.5` at the
protocol layer; and the pipeline entry point `detect` itself defaults to
`confidence_threshold = 0.01, iou_threshold = 0.1`. -/
theorem detect_request_defaults :
    (∀ img : String,
      DetectRequest.from_json
        { id := some "t1", type := some "detect", image := some img,
          options := some { confidence_threshold := some (1 / 2),
                            iou_threshold := some (3 / 10) } } =
        .ok { id := "t1", type := "detect", image := img,
              confidence_threshold := 1 / 2, iou_threshold := 3 / 10 })
    ∧ (∀ (data : JsonDict) (req : DetectRequest), data.options = none →
        DetectRequest.from_json data = .ok req →
        req.confidence_threshold = 3 / 10 ∧ req.iou_threshold = 1 / 2)
    ∧ (∀ (data : JsonDict) (opts : RequestOptions) (req : DetectRequest),
        data.options = some opts →
        DetectRequest.from_json data = .ok req →
        (opts.confidence_threshold = none → req.confidence_threshold = 3 / 10) ∧
        (opts.iou_threshold = none → req.iou_threshold = 1 / 2))
    ∧ (∀ (st : ParserState) (env : DetectEnv),
        detect st env = detect st env (1 / 100) (1 / 10)) := by
  refine ⟨fun img => rfl, ?_, ?_, fun st env => rfl⟩
  · rintro ⟨di, dt, dimg, dopts⟩ req hopts hjson
    simp only at hopts
    subst hopts
    cases di <;> cases dt <;> cases dimg <;>
      simp only [DetectRequest.from_json, reduceCtorEq] at hjson
    rw [Except.ok.injEq] at hjson
    rw [← hjson]
    exact ⟨rfl, rfl⟩
  · rintro ⟨di, dt, dimg, dopts⟩ opts req hopts hjson
    simp only at hopts
    subst hopts
    cases di <;> cases dt <;> cases dimg <;>
      simp only [DetectRequest.from_json, reduceCtorEq] at hjson
    rw [Except.ok.injEq] at hjson
    rw [← hjson]
    constructor
    · intro hcn
      simp [hcn]
    · intro hin
      simp [hin]

/-- A detect line with no options object. -/
def optionlessLine : JsonDict :=
  { id := some "t2", type := some "detect", image := some "AAAA" }

/-- Witness for C8 at the concrete optionless request. -/
theorem detect_request_defaults_witness :
    ({ id := "t2", type := "detect", image := "AAAA" } :
        DetectRequest).confidence_threshold = 3 / 10 ∧
    ({ id := "t2", type := "detect", image := "AAAA" } :
        DetectRequest).iou_threshold = 1 / 2 :=
  detect_request_defaults.2.1 optionlessLine
    { id := "t2", type := "detect", image := "AAAA" } rfl rfl

/-! ## C9: ping never triggers model loading -/

/-- A ping request line. -/
def pingLine : JsonDict := { id := some "p1", type := some "ping" }

/-- C9: handling a ping returns the parser state unchanged and a pong
whose `models_loaded` field is exactly the current `_loaded` flag — false
before any detect on a fresh state, true after any detect that returned a
result, since a successful detect leaves the state Loaded. -/
theorem ping_no_load :
    (∀ (st : ParserState) (env : ServerEnv) (data : JsonDict),
      data.type = some "ping" →
      handleLine st env (.obj data) =
        .next (.pong (data.id.getD "unknown") st.loaded env.device) st)
    ∧ (∀ (st : ParserState) (env : DetectEnv) (c i : ℚ) (st1 : ParserState)
        (els : List DetectedElement),
      detect st env c i = (st1, .ok els) → st1.loaded = true) := by
  constructor
  · intro st env data hty
    simp [handleLine, hty]
  · intro st env c i st1 els h
    exact load_ok_loaded (detect_ok_inv h).1

/-- Witness for C9: a ping on the fresh Unloaded state reports
`models_loaded = false` and leaves the state Unloaded. -/
theorem ping_no_load_witness :
    handleLine { loaded := false } missingModelsEnv (.obj pingLine) =
      .next (.pong "p1" false "cpu") { loaded := false } :=
  ping_no_load.1 { loaded := false } missingModelsEnv pingLine rfl

end StrobeVision
